import Mathlib

/-!
Shallow embedding of the matching/scoring engine of the Medical Diagnosis
Assistant repository (src/database.py), together with theorems settling the
frozen claims about it.

Modelling conventions:
* Disease names and symptom descriptions are opaque values compared by
  equality, so the engine is parametrised by types `δ` (disease names) and
  `σ` (symptom descriptions) with decidable equality; the Python code uses
  strings for both.
* Python float scores are modelled by `ℚ`.  All scores produced by the code
  are small rationals (`100 * m / size` rounded to two decimals, and
  `count + 10` boosts), far away from any regime where IEEE-754 double
  rounding could diverge from exact rational arithmetic.
* Python's `round(x, 2)` (round half to even at two decimal places) is
  modelled by `round2` below, built from a round-half-to-even integer
  rounding `roundHE`.
* Python's `list.sort(key=..., reverse=True)` is a stable descending sort;
  any stable sort with the same key produces the identical list, so it is
  modelled by Mathlib's stable `List.insertionSort` with the relation
  `fun a b => b.2 ≤ a.2`.
* The SQLite accessor is modelled by a `RuleDB` record: the list of disease
  names returned by `get_all_diseases` (the engine only uses the name
  component of each row) and the `get_rules_for_disease` lookup function.
* The `defaultdict(int)` used for suggestion counts is an insertion-ordered
  dictionary; it is modelled by an association list where `bump` increments
  an existing key in place or appends a fresh key at the end, exactly as
  Python dict insertion order behaves.
-/

namespace MedDiag

variable {δ σ : Type} [DecidableEq δ] [DecidableEq σ]

/-- Count of the symptoms of one condition group that occur in the reported
set (the `matched_count` loop of `diagnose_from_symptoms`, database.py
lines 1283-1286).  Membership in a Python set of strings is membership in
the `reported` list. -/
def countMatched (reported g : List σ) : ℕ :=
  g.countP (fun s => decide (s ∈ reported))

/-- Round half to even to the nearest integer, the rounding used by
Python's built-in `round`. -/
def roundHE (q : ℚ) : ℤ :=
  if q - ⌊q⌋ < 1 / 2 then ⌊q⌋
  else if 1 / 2 < q - ⌊q⌋ then ⌊q⌋ + 1
  else if ⌊q⌋ % 2 = 0 then ⌊q⌋ else ⌊q⌋ + 1

/-- Python's `round(x, 2)`: round half to even at two decimal places. -/
def round2 (q : ℚ) : ℚ :=
  (roundHE (q * 100) : ℚ) / 100

/-- One iteration of the best-group loop of `diagnose_from_symptoms`
(database.py lines 1278-1289): empty groups are skipped, and the running
pair `(max_matched_symptoms_in_any_group, best_matching_group_size)` is
replaced only when the new matched count is strictly greater. -/
def bestStep (reported : List σ) (acc : ℕ × ℕ) (g : List σ) : ℕ × ℕ :=
  if g = [] then acc
  else if acc.1 < countMatched reported g then (countMatched reported g, g.length)
  else acc

/-- The best-group loop over all condition groups of one disease, starting
from `(0, 0)` as in the code. -/
def bestOf (reported : List σ) (rules : List (List σ)) : ℕ × ℕ :=
  rules.foldl (bestStep reported) (0, 0)

/-- The rule-store accessor as the engine sees it: the disease names in
enumeration order (`get_all_diseases`) and the condition groups of each
disease (`get_rules_for_disease`). -/
structure RuleDB (δ σ : Type) where
  diseases : List δ
  rules : δ → List (List σ)

/-- Phase-1 treatment of a single disease (database.py lines 1270-1298):
skip when it has no rules, run the best-group loop, and when at least one
symptom matched produce the rounded percentage score
`round((max / best_size) * 100, 2)` (with the code's guard
`if best_size > 0 else 0`). -/
def diagnosisFor (reported : List σ) (rules : List (List σ)) : Option ℚ :=
  if rules = [] then none
  else if 0 < (bestOf reported rules).1 then
    some (round2
      (if 0 < (bestOf reported rules).2 then
        (((bestOf reported rules).1 : ℚ) / ((bestOf reported rules).2 : ℚ)) * 100
      else 0))
  else none

/-- Phase 1 of `diagnose_from_symptoms`: the `potential_diagnoses` list in
disease-enumeration order, one `(name, score)` entry per disease that
matched. -/
def potentialDiagnoses (db : RuleDB δ σ) (reported : List σ) : List (δ × ℚ) :=
  db.diseases.filterMap (fun d => (diagnosisFor reported (db.rules d)).map (fun q => (d, q)))

/-- Python's `list.sort(key=lambda x: x['score'], reverse=True)`: the stable
descending sort by score, modelled by stable insertion sort. -/
def sortDesc {α : Type} (l : List (α × ℚ)) : List (α × ℚ) :=
  l.insertionSort (fun a b => b.2 ≤ a.2)

/-- The boost constant `BOOST_VALUE = 10` of database.py line 1324. -/
def BOOST_VALUE : ℚ := 10

/-- Increment the count of a key of an insertion-ordered dictionary
(`predicted_symptom_base_counts[symptom] += 1` on a `defaultdict(int)`):
the first entry with this key is incremented in place, and a missing key is
appended at the end with count 1. -/
def bump : List (σ × ℕ) → σ → List (σ × ℕ)
  | [], s => [(s, 1)]
  | (k, n) :: rest, s =>
      if k = s then (k, n + 1) :: rest else (k, n) :: bump rest s

/-- The per-symptom statement of database.py lines 1332-1334: symptoms
already reported are skipped, the others are counted. -/
def addSymptomCount (reported : List σ) (counts : List (σ × ℕ)) (s : σ) : List (σ × ℕ) :=
  if s ∈ reported then counts else bump counts s

/-- The `predicted_symptom_base_counts` dictionary after the counting loops
of database.py lines 1327-1334: for every diagnosis of the top-5 list, for
every condition group of that disease, every non-reported symptom
occurrence is counted. -/
def baseCounts (db : RuleDB δ σ) (reported : List σ) (top5 : List (δ × ℚ)) :
    List (σ × ℕ) :=
  top5.foldl
    (fun acc p =>
      (db.rules p.1).foldl (fun acc2 g => g.foldl (addSymptomCount reported) acc2) acc)
    []

/-- The `top_disease_symptoms_in_rules` set of database.py lines 1313-1317:
all symptoms of all condition groups of the first (top-ranked) disease of
the top-5 list, or the empty set when there is none.  Set membership is
membership in the flattened group list. -/
def topDiseaseSymptoms (db : RuleDB δ σ) (top5 : List (δ × ℚ)) : List σ :=
  match top5 with
  | [] => []
  | p :: _ => (db.rules p.1).flatten

/-- Phase 2 of `diagnose_from_symptoms` (database.py lines 1305-1348): each
counted symptom gets score `base_count` plus the boost when it occurs among
the top disease's rule symptoms, and the resulting list is sorted by score
descending.  Key order of the score dictionary is the insertion order of
the base-count dictionary, as in Python. -/
def predictedSymptoms (db : RuleDB δ σ) (reported : List σ) (top5 : List (δ × ℚ)) :
    List (σ × ℚ) :=
  sortDesc
    ((baseCounts db reported top5).map
      (fun p => (p.1, (p.2 : ℚ) + if p.1 ∈ topDiseaseSymptoms db top5 then BOOST_VALUE else 0)))

/-- The two ranked result lists of a successful `diagnose_from_symptoms`
run: the sorted diagnosis list and the suggestion list computed from its
top five entries. -/
def diagnoseEngine (db : RuleDB δ σ) (reported : List σ) :
    List (δ × ℚ) × List (σ × ℚ) :=
  let ranked := sortDesc (potentialDiagnoses db reported)
  (ranked, predictedSymptoms db reported (ranked.take 5))

/-- The outer control flow of `diagnose_from_symptoms` (database.py lines
1247-1259) for a path argument: a missing database file returns the single
value `None` (modelled by `none`), a failed connection returns the pair
`([], [])`, and otherwise the engine runs.  `fileExists` models
`Path(db_path).exists()` and `connOk` models `db.conn is not None`.  (When
a database object is passed directly the existence check is skipped, which
is the `fileExists = true` case.) -/
def diagnose_from_symptoms (fileExists connOk : Bool) (db : RuleDB δ σ)
    (reported : List σ) : Option (List (δ × ℚ) × List (σ × ℚ)) :=
  if fileExists = false then none
  else if connOk = false then some ([], [])
  else some (diagnoseEngine db reported)

/-- State of the group-reconstruction loop of `get_rules_for_disease`
(database.py lines 473-488): the groups emitted so far, the current group
id (`None` before the first row) and the symptoms of the current group. -/
structure ReconState (σ : Type) where
  acc : List (List σ)
  curId : Option ℕ
  cur : List σ

/-- One iteration of the reconstruction loop: a row with a new group id
flushes the current group when it is non-empty and starts a fresh one,
while a row of the same group appends its symptom. -/
def reconStep (st : ReconState σ) (row : ℕ × σ) : ReconState σ :=
  if st.curId ≠ some row.1 then
    ⟨if st.cur = [] then st.acc else st.acc ++ [st.cur], some row.1, [row.2]⟩
  else
    ⟨st.acc, st.curId, st.cur ++ [row.2]⟩

/-- The reconstruction of the nested rule structure from the flat query
rows `(group_id, symptom_description)` (database.py lines 469-492),
including the final flush of the last non-empty group. -/
def reconstructRules (results : List (ℕ × σ)) : List (List σ) :=
  if results = [] then []
  else if (results.foldl reconStep ⟨[], none, []⟩).cur = [] then
    (results.foldl reconStep ⟨[], none, []⟩).acc
  else
    (results.foldl reconStep ⟨[], none, []⟩).acc ++
      [(results.foldl reconStep ⟨[], none, []⟩).cur]

/-- `get_rules_for_disease`: an unknown disease yields `[]`, otherwise the
flat query rows are reconstructed into the list of condition groups.
`diseaseFound` models `get_disease_id(disease_name) is not None`. -/
def get_rules_for_disease (diseaseFound : Bool) (results : List (ℕ × σ)) :
    List (List σ) :=
  if diseaseFound = false then [] else reconstructRules results

/-- Specification-side definition, following the spec's words for operation
A step 3: the maximal matched count over all condition groups of one
disease. -/
def maxMatchCount (reported : List σ) (rules : List (List σ)) : ℕ :=
  (rules.map (countMatched reported)).foldr max 0

/-- Specification-side definition, following the spec's words for operation
B step 4 and claim C6: the number of `(disease, group)` occurrences of a
symptom across all condition groups of the top-5 diseases. -/
def groupOccurrences (db : RuleDB δ σ) (top5 : List (δ × ℚ)) (s : σ) : ℕ :=
  ((top5.map (fun p => db.rules p.1)).flatten).countP (fun g => decide (s ∈ g))

/-- Concrete store for the size-3 rounding example: one disease whose rule
has a single condition group of three symptoms. -/
def thirdDB : RuleDB ℕ ℕ :=
  ⟨[7], fun _ => [[0, 1, 2]]⟩

/-- Concrete store exhibiting rounding to zero: one disease whose only
condition group has 20001 pairwise distinct symptoms. -/
def hugeGroupDB : RuleDB ℕ ℕ :=
  ⟨[0], fun _ => [List.range 20001]⟩

/-- Concrete store of the spec's section-8 scenario: disease 10 has groups
`[[0, 1], [2]]` and disease 20 has group `[[0, 3]]`. -/
def scenarioDB : RuleDB ℕ ℕ :=
  ⟨[10, 20], fun d => if d = 10 then [[0, 1], [2]] else if d = 20 then [[0, 3]] else []⟩

/-- Concrete store with no diseases at all. -/
def emptyDB : RuleDB ℕ ℕ :=
  ⟨[], fun _ => []⟩

theorem countMatched_nil (reported : List σ) : countMatched reported [] = 0 := rfl

theorem countMatched_le_length (reported g : List σ) :
    countMatched reported g ≤ g.length :=
  List.countP_le_length _

theorem ne_nil_of_countMatched_pos {reported g : List σ}
    (h : 0 < countMatched reported g) : g ≠ [] := by
  intro hg
  rw [hg, countMatched_nil] at h
  exact absurd h (lt_irrefl 0)

theorem bestStep_fst (reported : List σ) (acc : ℕ × ℕ) (g : List σ) :
    (bestStep reported acc g).1 = max acc.1 (countMatched reported g) := by
  unfold bestStep
  split_ifs with h1 h2
  · rw [h1, countMatched_nil, Nat.max_zero]
  · exact (Nat.max_eq_right (Nat.le_of_lt h2)).symm
  · exact (Nat.max_eq_left (Nat.le_of_not_lt h2)).symm

theorem maxMatchCount_nil (reported : List σ) : maxMatchCount reported [] = 0 := rfl

theorem maxMatchCount_cons (reported g : List σ) (rs : List (List σ)) :
    maxMatchCount reported (g :: rs) =
      max (countMatched reported g) (maxMatchCount reported rs) := rfl

theorem le_maxMatchCount_of_mem {reported g : List σ} {rules : List (List σ)}
    (h : g ∈ rules) : countMatched reported g ≤ maxMatchCount reported rules := by
  induction rules with
  | nil => cases h
  | cons g0 rs ih =>
      rw [maxMatchCount_cons]
      rcases List.mem_cons.mp h with h0 | h0
      · rw [h0]; exact le_max_left _ _
      · exact le_trans (ih h0) (le_max_right _ _)

theorem maxMatchCount_attained {reported : List σ} {rules : List (List σ)}
    (h : 0 < maxMatchCount reported rules) :
    ∃ g ∈ rules, countMatched reported g = maxMatchCount reported rules := by
  induction rules with
  | nil => exact absurd h (lt_irrefl 0)
  | cons g0 rs ih =>
      rw [maxMatchCount_cons] at h ⊢
      rcases max_choice (countMatched reported g0) (maxMatchCount reported rs) with hc | hc
      · exact ⟨g0, List.mem_cons_self g0 rs, hc.symm⟩
      · rw [hc] at h
        obtain ⟨g, hg, hgc⟩ := ih h
        exact ⟨g, List.mem_cons_of_mem g0 hg, by rw [hgc, hc]⟩

theorem foldl_bestStep_fst (reported : List σ) (rules : List (List σ)) :
    ∀ acc : ℕ × ℕ,
      (List.foldl (bestStep reported) acc rules).1 =
        max acc.1 (maxMatchCount reported rules) := by
  induction rules with
  | nil => intro acc; rw [List.foldl_nil, maxMatchCount_nil, Nat.max_zero]
  | cons g rs ih =>
      intro acc
      rw [List.foldl_cons, ih, bestStep_fst, maxMatchCount_cons, Nat.max_assoc]

theorem foldl_bestStep_frozen (reported : List σ) {rules : List (List σ)}
    {acc : ℕ × ℕ} (h : maxMatchCount reported rules ≤ acc.1) :
    List.foldl (bestStep reported) acc rules = acc := by
  induction rules with
  | nil => rw [List.foldl_nil]
  | cons g rs ih =>
      rw [maxMatchCount_cons, Nat.max_le] at h
      have hstep : bestStep reported acc g = acc := by
        unfold bestStep
        split_ifs with h1 h2
        · rfl
        · exact absurd h2 (Nat.not_lt.mpr h.1)
        · rfl
      rw [List.foldl_cons, hstep]
      exact ih h.2

theorem foldl_bestStep_first_achiever (reported : List σ) (rules : List (List σ)) :
    ∀ acc : ℕ × ℕ, acc.1 < maxMatchCount reported rules →
      ∃ g, rules.find?
            (fun g => decide (countMatched reported g = maxMatchCount reported rules)) =
          some g ∧
        List.foldl (bestStep reported) acc rules =
          (maxMatchCount reported rules, g.length) := by
  induction rules with
  | nil =>
      intro acc h
      rw [maxMatchCount_nil] at h
      exact absurd h (Nat.not_lt.mpr (Nat.zero_le _))
  | cons g0 rs ih =>
      intro acc h
      by_cases hm : countMatched reported g0 = maxMatchCount reported (g0 :: rs)
      · have hpos : 0 < countMatched reported g0 :=
          lt_of_le_of_lt (Nat.zero_le _) (hm ▸ h)
        have hne : g0 ≠ [] := ne_nil_of_countMatched_pos hpos
        have hstep : bestStep reported acc g0 = (countMatched reported g0, g0.length) := by
          unfold bestStep
          rw [if_neg hne, if_pos (hm ▸ h)]
        have hrs : maxMatchCount reported rs ≤ countMatched reported g0 := by
          rw [hm, maxMatchCount_cons]
          exact le_max_right _ _
        refine ⟨g0, List.find?_cons_of_pos _ (by simp [hm]), ?_⟩
        rw [List.foldl_cons, hstep, foldl_bestStep_frozen reported hrs, hm]
      · have hle : countMatched reported g0 ≤ maxMatchCount reported (g0 :: rs) := by
          rw [maxMatchCount_cons]; exact le_max_left _ _
        have hlt : countMatched reported g0 < maxMatchCount reported (g0 :: rs) :=
          lt_of_le_of_ne hle hm
        have hMrs : maxMatchCount reported rs = maxMatchCount reported (g0 :: rs) := by
          rw [maxMatchCount_cons]
          rcases max_choice (countMatched reported g0) (maxMatchCount reported rs) with hc | hc
          · rw [maxMatchCount_cons] at hm; exact absurd hc.symm hm
          · exact hc.symm
        have hacc : (bestStep reported acc g0).1 < maxMatchCount reported rs := by
          rw [bestStep_fst, hMrs]
          exact max_lt h hlt
        obtain ⟨g, hfind, hfold⟩ := ih (bestStep reported acc g0) hacc
        rw [hMrs] at hfind hfold
        refine ⟨g, ?_, ?_⟩
        · rw [List.find?_cons_of_neg _ (by simp [hm])]
          exact hfind
        · rw [List.foldl_cons]
          exact hfold

theorem bestOf_fst (reported : List σ) (rules : List (List σ)) :
    (bestOf reported rules).1 = maxMatchCount reported rules := by
  rw [bestOf, foldl_bestStep_fst]
  exact Nat.zero_max _

theorem roundHE_of_floor_lt_half {q : ℚ} {z : ℤ} (h1 : ⌊q⌋ = z) (h2 : q - z < 1 / 2) :
    roundHE q = z := by
  unfold roundHE
  rw [h1, if_pos h2]

theorem roundHE_intCast (z : ℤ) : roundHE (z : ℚ) = z := by
  apply roundHE_of_floor_lt_half (Int.floor_intCast z)
  norm_num

theorem roundHE_nonneg {q : ℚ} (h : 0 ≤ q) : 0 ≤ roundHE q := by
  have hf : 0 ≤ ⌊q⌋ := Int.floor_nonneg.mpr h
  unfold roundHE
  split_ifs <;> omega

theorem roundHE_le_of_le {q : ℚ} {n : ℤ} (h : q ≤ (n : ℚ)) : roundHE q ≤ n := by
  have hf : ⌊q⌋ ≤ n := by
    have h2 := Int.floor_le_floor h
    rwa [Int.floor_intCast] at h2
  have hfq : (⌊q⌋ : ℚ) ≤ q := Int.floor_le q
  have key : ¬(q - ⌊q⌋ < 1 / 2) → ⌊q⌋ + 1 ≤ n := by
    intro hh
    have h3 : (⌊q⌋ : ℚ) + 1 / 2 ≤ q := by linarith
    have h4 : (⌊q⌋ : ℚ) < (n : ℚ) := by linarith
    have h5 : ⌊q⌋ < n := by exact_mod_cast h4
    omega
  unfold roundHE
  split_ifs with h1 h2 h3
  · exact hf
  · exact key h1
  · exact hf
  · exact key h1

theorem round2_nonneg {q : ℚ} (h : 0 ≤ q) : 0 ≤ round2 q := by
  unfold round2
  apply div_nonneg _ (by norm_num)
  exact_mod_cast roundHE_nonneg (mul_nonneg h (by norm_num))

theorem round2_le_100 {q : ℚ} (h : q ≤ 100) : round2 q ≤ 100 := by
  have h1 : roundHE (q * 100) ≤ (10000 : ℤ) := by
    apply roundHE_le_of_le
    push_cast
    linarith
  have h2 : (roundHE (q * 100) : ℚ) ≤ 10000 := by exact_mod_cast h1
  unfold round2
  linarith

theorem round2_intCast (z : ℤ) : round2 (z : ℚ) = z := by
  unfold round2
  have h1 : ((z : ℚ) * 100) = ((z * 100 : ℤ) : ℚ) := by push_cast; ring
  rw [h1, roundHE_intCast]
  push_cast
  rw [mul_div_assoc]
  norm_num

theorem round2_eval_floor {q : ℚ} {z : ℤ} (h1 : (z : ℚ) ≤ q * 100)
    (h2 : q * 100 < z + 1) (h3 : q * 100 - z < 1 / 2) :
    round2 q = (z : ℚ) / 100 := by
  unfold round2
  rw [roundHE_of_floor_lt_half (Int.floor_eq_iff.mpr ⟨h1, h2⟩) h3]

theorem diagnoseEngine_fst (db : RuleDB δ σ) (reported : List σ) :
    (diagnoseEngine db reported).1 = sortDesc (potentialDiagnoses db reported) := rfl

theorem diagnoseEngine_snd (db : RuleDB δ σ) (reported : List σ) :
    (diagnoseEngine db reported).2 =
      predictedSymptoms db reported ((sortDesc (potentialDiagnoses db reported)).take 5) := rfl

theorem mem_sortDesc {α : Type} {a : α × ℚ} {l : List (α × ℚ)} :
    a ∈ sortDesc l ↔ a ∈ l :=
  (List.perm_insertionSort _ l).mem_iff

theorem diagnosisFor_eq_some {reported : List σ} {rules : List (List σ)} {q : ℚ}
    (h : diagnosisFor reported rules = some q) :
    ∃ g ∈ rules, 0 < countMatched reported g ∧
      bestOf reported rules = (countMatched reported g, g.length) ∧
      q = round2 (100 * (countMatched reported g : ℚ) / (g.length : ℚ)) := by
  by_cases h1 : rules = []
  · unfold diagnosisFor at h
    rw [if_pos h1] at h
    exact Option.noConfusion h
  · by_cases h2 : 0 < (bestOf reported rules).1
    · unfold diagnosisFor at h
      rw [if_neg h1, if_pos h2] at h
      rw [bestOf_fst] at h2
      obtain ⟨g, hfind, hfold⟩ :=
        foldl_bestStep_first_achiever reported rules (0, 0) h2
      have hmem : g ∈ rules := List.mem_of_find?_eq_some hfind
      have hcount : countMatched reported g = maxMatchCount reported rules := by
        have h3 := List.find?_some hfind
        simpa using h3
      have hbest : bestOf reported rules = (countMatched reported g, g.length) := by
        rw [bestOf, hfold, hcount]
      have hcpos : 0 < countMatched reported g := by rw [hcount]; exact h2
      have hlpos : 0 < g.length :=
        List.length_pos.mpr (ne_nil_of_countMatched_pos hcpos)
      refine ⟨g, hmem, hcpos, hbest, ?_⟩
      rw [hbest] at h
      dsimp only at h
      rw [if_pos hlpos] at h
      injection h with h4
      rw [← h4]
      congr 1
      ring
    · unfold diagnosisFor at h
      rw [if_neg h1, if_neg h2] at h
      exact Option.noConfusion h

theorem diagnosisFor_of_overlap {reported : List σ} {rules : List (List σ)}
    {g : List σ} (hg : g ∈ rules) (hc : 0 < countMatched reported g) :
    ∃ q, diagnosisFor reported rules = some q := by
  have hM : 0 < maxMatchCount reported rules :=
    lt_of_lt_of_le hc (le_maxMatchCount_of_mem hg)
  have hne : rules ≠ [] := by
    intro h
    rw [h] at hg
    cases hg
  unfold diagnosisFor
  rw [if_neg hne, if_pos (show 0 < (bestOf reported rules).1 by rw [bestOf_fst]; exact hM)]
  exact ⟨_, rfl⟩

theorem mem_ranked_iff {db : RuleDB δ σ} {reported : List σ} {d : δ} {q : ℚ} :
    (d, q) ∈ (diagnoseEngine db reported).1 ↔
      d ∈ db.diseases ∧ diagnosisFor reported (db.rules d) = some q := by
  rw [diagnoseEngine_fst, mem_sortDesc]
  constructor
  · intro h
    obtain ⟨d0, hd0, heq⟩ := List.mem_filterMap.mp h
    cases hopt : diagnosisFor reported (db.rules d0) with
    | none => rw [hopt] at heq; exact Option.noConfusion heq
    | some q0 =>
        rw [hopt, Option.map_some'] at heq
        injection heq with h1
        obtain ⟨h2, h3⟩ := Prod.ext_iff.mp h1
        dsimp only at h2 h3
        subst h2
        subst h3
        exact ⟨hd0, hopt⟩
  · intro ⟨hd, hq⟩
    exact List.mem_filterMap.mpr ⟨d, hd, by rw [hq]; rfl⟩

/-- Claim C3: for every disease included in the diagnosis output, its
reported score equals `100 * matched(best_group) / |best_group|` rounded to
two decimal places, where the best group is the condition group selected by
the best-group loop (its matched count and size are exactly the recorded
best pair). -/
theorem score_formula (db : RuleDB δ σ) (reported : List σ) (d : δ) (q : ℚ)
    (h : (d, q) ∈ (diagnoseEngine db reported).1) :
    ∃ g ∈ db.rules d, 0 < countMatched reported g ∧
      bestOf reported (db.rules d) = (countMatched reported g, g.length) ∧
      q = round2 (100 * (countMatched reported g : ℚ) / (g.length : ℚ)) :=
  diagnosisFor_eq_some (mem_ranked_iff.mp h).2

theorem round2_third : round2 ((1 : ℚ) / 3 * 100) = 3333 / 100 := by
  have h := @round2_eval_floor ((1 : ℚ) / 3 * 100) 3333 (by norm_num) (by norm_num)
    (by norm_num)
  rw [h]
  norm_num

theorem ranked_thirdDB : (diagnoseEngine thirdDB [0]).1 = [(7, 3333 / 100)] := by
  rw [diagnoseEngine_fst]
  have h2 : diagnosisFor ([0] : List ℕ) [[0, 1, 2]] =
      some (round2 (((1 : ℕ) : ℚ) / ((3 : ℕ) : ℚ) * 100)) := rfl
  have h1 : potentialDiagnoses thirdDB [0] = [(7, round2 ((1 : ℚ) / 3 * 100))] := by
    have hd : thirdDB.diseases = [7] := rfl
    have hr : thirdDB.rules 7 = [[0, 1, 2]] := rfl
    rw [potentialDiagnoses, hd]
    rw [List.filterMap_cons, hr, h2]
    norm_num
  rw [h1, round2_third]
  rfl

/-- Claim C3 witness: the concrete store with one condition group of three
symptoms, one of which is reported, where the output score is 33.33. -/
theorem score_formula_witness :
    ((7, (3333 : ℚ) / 100) ∈ (diagnoseEngine thirdDB [0]).1) ∧
      ∃ g ∈ thirdDB.rules 7, 0 < countMatched [0] g ∧
        bestOf [0] (thirdDB.rules 7) = (countMatched [0] g, g.length) ∧
        (3333 / 100 : ℚ) = round2 (100 * (countMatched [0] g : ℚ) / (g.length : ℚ)) :=
  ⟨by simp [ranked_thirdDB],
    score_formula thirdDB [0] 7 (3333 / 100) (by simp [ranked_thirdDB])⟩

/-- Claim C2 (amended): every `(disease_name, score)` pair in the ranked
diagnosis output satisfies `0 ≤ score ≤ 100`, and a disease is collected
exactly when its best group matched at least one reported symptom; the
strict lower bound of the claim fails because the score of a matched group
with more than 20000 symptoms rounds to 0. -/
theorem score_bounds (db : RuleDB δ σ) (reported : List σ) (p : δ × ℚ)
    (h : p ∈ (diagnoseEngine db reported).1) : 0 ≤ p.2 ∧ p.2 ≤ 100 := by
  obtain ⟨d, q⟩ := p
  obtain ⟨g, _, hc, _, hq⟩ := diagnosisFor_eq_some (mem_ranked_iff.mp h).2
  have hcl : countMatched reported g ≤ g.length := countMatched_le_length _ _
  have hlpos : 0 < g.length := lt_of_lt_of_le hc hcl
  have hlq : (0 : ℚ) < (g.length : ℚ) := by exact_mod_cast hlpos
  have hclq : (countMatched reported g : ℚ) ≤ (g.length : ℚ) := by exact_mod_cast hcl
  have hx0 : (0 : ℚ) ≤ 100 * (countMatched reported g : ℚ) / (g.length : ℚ) := by
    positivity
  have hx1 : 100 * (countMatched reported g : ℚ) / (g.length : ℚ) ≤ 100 := by
    rw [div_le_iff₀ hlq]
    linarith
  dsimp only
  rw [hq]
  exact ⟨round2_nonneg hx0, round2_le_100 hx1⟩

/-- Claim C2 witness for the amended bounds, at the 33.33 example. -/
theorem score_bounds_witness :
    (((7, (3333 : ℚ) / 100) : ℕ × ℚ) ∈ (diagnoseEngine thirdDB [0]).1) ∧
      0 ≤ ((7, (3333 : ℚ) / 100) : ℕ × ℚ).2 ∧ ((7, (3333 : ℚ) / 100) : ℕ × ℚ).2 ≤ 100 :=
  ⟨by simp [ranked_thirdDB],
    score_bounds thirdDB [0] (7, 3333 / 100) (by simp [ranked_thirdDB])⟩

theorem countMatched_zero_range : countMatched [0] (List.range 20001) = 1 := by
  unfold countMatched
  have hfun : ∀ s ∈ List.range 20001,
      (decide (s ∈ ([0] : List ℕ)) = true ↔ (s == 0) = true) := by
    intro s _
    by_cases h : s = 0 <;> simp [h]
  rw [List.countP_congr hfun]
  have hc : List.countP (fun s => s == 0) (List.range 20001) = List.count 0 (List.range 20001) := by
    rw [List.count]
  rw [hc]
  exact List.count_eq_one_of_mem (List.nodup_range 20001) (List.mem_range.mpr (by norm_num))

theorem bestOf_hugeGroup : bestOf [0] [List.range 20001] = (1, 20001) := by
  unfold bestOf
  rw [List.foldl_cons, List.foldl_nil]
  unfold bestStep
  rw [if_neg (by simp), countMatched_zero_range,
    if_pos (show (0 : ℕ) < 1 by norm_num), List.length_range]

theorem diagnosisFor_hugeGroup : diagnosisFor [0] [List.range 20001] = some 0 := by
  unfold diagnosisFor
  rw [if_neg (by simp), bestOf_hugeGroup]
  dsimp only
  rw [if_pos (show (0 : ℕ) < 1 by norm_num),
    if_pos (show (0 : ℕ) < 20001 by norm_num)]
  congr 1
  have h := @round2_eval_floor (((1 : ℕ) : ℚ) / ((20001 : ℕ) : ℚ) * 100) 0
    (by push_cast; norm_num) (by push_cast; norm_num) (by push_cast; norm_num)
  rw [h]
  norm_num

theorem ranked_hugeGroupDB : (diagnoseEngine hugeGroupDB [0]).1 = [(0, 0)] := by
  rw [diagnoseEngine_fst]
  have h1 : potentialDiagnoses hugeGroupDB [0] = [(0, 0)] := by
    have hd : hugeGroupDB.diseases = [0] := rfl
    have hr : hugeGroupDB.rules 0 = [List.range 20001] := rfl
    rw [potentialDiagnoses, hd, List.filterMap_cons, hr, diagnosisFor_hugeGroup]
    rfl
  rw [h1]
  rfl

/-- Claim C2 counterexample: with one disease whose single condition group
has 20001 pairwise distinct symptoms (satisfying the section-3 invariants)
and exactly one of them reported, the disease appears in the ranked output
with score 0, refuting `0 < score` and "only diseases with score > 0 are
collected". -/
theorem score_zero_in_output :
    ((0, (0 : ℚ)) ∈ (diagnoseEngine hugeGroupDB [0]).1) ∧ ¬(0 < (0 : ℚ)) := by
  constructor
  · rw [ranked_hugeGroupDB]
    exact List.mem_singleton.mpr rfl
  · norm_num

/-- Claim C5: a disease appears in the diagnosis output exactly when it is
one of the accessor's diseases and at least one of its condition groups has
non-zero overlap with the reported set; in particular a disease with no
condition groups, or whose every group has zero overlap, never appears. -/
theorem diagnosis_membership_iff (db : RuleDB δ σ) (reported : List σ) (d : δ) :
    (∃ q, (d, q) ∈ (diagnoseEngine db reported).1) ↔
      (d ∈ db.diseases ∧ ∃ g ∈ db.rules d, 0 < countMatched reported g) := by
  constructor
  · rintro ⟨q, hq⟩
    obtain ⟨hd, hdf⟩ := mem_ranked_iff.mp hq
    obtain ⟨g, hg, hc, _, _⟩ := diagnosisFor_eq_some hdf
    exact ⟨hd, g, hg, hc⟩
  · rintro ⟨hd, g, hg, hc⟩
    obtain ⟨q, hq⟩ := diagnosisFor_of_overlap hg hc
    exact ⟨q, mem_ranked_iff.mpr ⟨hd, hq⟩⟩

theorem sortDesc_sorted {α : Type} (l : List (α × ℚ)) :
    List.Pairwise (fun a b : α × ℚ => b.2 ≤ a.2) (sortDesc l) := by
  letI : IsTotal (α × ℚ) (fun a b : α × ℚ => b.2 ≤ a.2) := ⟨fun a b => le_total b.2 a.2⟩
  letI : IsTrans (α × ℚ) (fun a b : α × ℚ => b.2 ≤ a.2) :=
    ⟨fun a b c h1 h2 => le_trans h2 h1⟩
  exact List.sorted_insertionSort _ _

/-- Claim C8: both returned lists are sorted in non-increasing order of
score: every later entry's score is at most every earlier entry's score, in
the diagnosis list and in the suggestion list. -/
theorem outputs_sorted_desc (db : RuleDB δ σ) (reported : List σ) :
    List.Pairwise (fun a b : δ × ℚ => b.2 ≤ a.2) (diagnoseEngine db reported).1 ∧
    List.Pairwise (fun a b : σ × ℚ => b.2 ≤ a.2) (diagnoseEngine db reported).2 := by
  constructor
  · rw [diagnoseEngine_fst]
    exact sortDesc_sorted _
  · rw [diagnoseEngine_snd]
    unfold predictedSymptoms
    exact sortDesc_sorted _

/-- Claim C1 counterexample: with the database file present but the
connection failed (the data source cannot be reached), the function
returns `([], [])` — exactly the value a legitimate no-matches run returns
(here the same call with a working connection on a store with no
diseases), so this form of unavailability is not distinguishable from the
empty result. -/
theorem unavailability_equals_empty_result :
    diagnose_from_symptoms true false emptyDB [0] = some ([], []) ∧
    diagnose_from_symptoms true true emptyDB [0] = some ([], []) :=
  ⟨rfl, rfl⟩

/-- Claim C1 (amended): only the missing-database-file form of
unavailability is signalled distinctly from a legitimate empty result —
that branch returns the single value `None`, never a pair — while a failed
connection is reported as `([], [])`, which coincides with a valid empty
result. -/
theorem unavailability_signalling (db : RuleDB δ σ) (reported : List σ) (c : Bool) :
    (diagnose_from_symptoms false c db reported = none ∧
      ∀ pr : List (δ × ℚ) × List (σ × ℚ),
        diagnose_from_symptoms false c db reported ≠ some pr) ∧
    diagnose_from_symptoms true false db reported = some ([], []) := by
  refine ⟨⟨rfl, ?_⟩, rfl⟩
  intro pr h
  exact Option.noConfusion h

/-- Claim C9: a call with a database path whose file does not exist returns
the single value `None` rather than a pair of lists, in contrast to the
connection-failure branch, which returns the pair `([], [])`. -/
theorem missing_file_returns_none (db : RuleDB δ σ) (reported : List σ) (c : Bool) :
    diagnose_from_symptoms false c db reported = none ∧
    diagnose_from_symptoms false c db reported ≠
      diagnose_from_symptoms true false db reported := by
  refine ⟨rfl, ?_⟩
  intro h
  exact Option.noConfusion h

theorem reconStep_acc_nonempty {st : ReconState σ} {row : ℕ × σ}
    (h : ∀ g ∈ st.acc, g ≠ []) : ∀ g ∈ (reconStep st row).acc, g ≠ [] := by
  unfold reconStep
  split_ifs with h1 h2
  · exact h
  · intro g hg
    rcases List.mem_append.mp hg with h3 | h3
    · exact h g h3
    · rw [List.mem_singleton.mp h3]
      exact h2
  · exact h

theorem foldl_reconStep_acc_nonempty (results : List (ℕ × σ)) :
    ∀ st : ReconState σ, (∀ g ∈ st.acc, g ≠ []) →
      ∀ g ∈ (results.foldl reconStep st).acc, g ≠ [] := by
  induction results with
  | nil => intro st h; exact h
  | cons row rows ih =>
      intro st h
      rw [List.foldl_cons]
      exact ih _ (reconStep_acc_nonempty h)

/-- Claim C10: every condition group in the list returned by
`get_rules_for_disease` is non-empty: the reconstruction loop only emits
groups containing at least one symptom, so the engine never receives an
empty group from this accessor. -/
theorem reconstructed_groups_nonempty (found : Bool) (results : List (ℕ × σ))
    (g : List σ) (h : g ∈ get_rules_for_disease found results) : g ≠ [] := by
  unfold get_rules_for_disease at h
  split_ifs at h with h1
  · cases h
  · unfold reconstructRules at h
    have hacc : ∀ g2 ∈ (results.foldl reconStep ⟨[], none, []⟩).acc, g2 ≠ [] :=
      foldl_reconStep_acc_nonempty results _ (by intro g2 hg2; cases hg2)
    split_ifs at h with h2 h3
    · cases h
    · exact hacc g h
    · rcases List.mem_append.mp h with h4 | h4
      · exact hacc g h4
      · rw [List.mem_singleton.mp h4]
        exact h3

/-- Claim C10 witness: two reconstructed groups from three concrete query
rows, the first of which is the non-empty group `[0, 1]`. -/
theorem reconstructed_groups_nonempty_witness :
    (([0, 1] : List ℕ) ∈ get_rules_for_disease true [(1, 0), (1, 1), (2, 5)]) ∧
      ([0, 1] : List ℕ) ≠ [] :=
  ⟨by decide,
    reconstructed_groups_nonempty true [(1, 0), (1, 1), (2, 5)] [0, 1] (by decide)⟩

theorem bump_lookup (x s : σ) :
    ∀ acc : List (σ × ℕ),
      (bump acc x).lookup s =
        if s = x then some ((acc.lookup s).getD 0 + 1) else acc.lookup s := by
  intro acc
  induction acc with
  | nil =>
      by_cases hsx : s = x
      · subst hsx
        simp [bump, List.lookup]
      · have hb : (s == x) = false := beq_eq_false_iff_ne.mpr hsx
        simp [bump, List.lookup, hb, hsx]
  | cons p rest ih =>
      obtain ⟨k, n⟩ := p
      by_cases hkx : k = x
      · subst hkx
        by_cases hsk : s = k
        · subst hsk
          simp [bump, List.lookup]
        · have hb : (s == k) = false := beq_eq_false_iff_ne.mpr hsk
          simp [bump, List.lookup, hb, hsk]
      · by_cases hsk : s = k
        · subst hsk
          have hsx : ¬s = x := hkx
          simp [bump, List.lookup, hkx, hsx]
        · have hb : (s == k) = false := beq_eq_false_iff_ne.mpr hsk
          simp [bump, List.lookup, hkx, hb, hsk, ih]

theorem foldl_bump_lookup (xs : List σ) :
    ∀ (acc : List (σ × ℕ)) (s : σ),
      (List.foldl bump acc xs).lookup s =
        if s ∈ xs ∨ (acc.lookup s).isSome then
          some ((acc.lookup s).getD 0 + xs.count s)
        else none := by
  induction xs with
  | nil =>
      intro acc s
      cases h : acc.lookup s <;> simp [h]
  | cons x xs ih =>
      intro acc s
      rw [List.foldl_cons, ih (bump acc x) s, bump_lookup]
      by_cases hsx : s = x
      · subst hsx
        rw [if_pos rfl]
        simp [List.count_cons]
        omega
      · rw [if_neg hsx]
        have hb : (x == s) = false := beq_eq_false_iff_ne.mpr (fun h => hsx h.symm)
        have hc : List.count s (x :: xs) = List.count s xs := by
          rw [List.count_cons, hb]
          norm_num
        have hm : (s ∈ x :: xs ∨ (acc.lookup s).isSome = true) ↔
            (s ∈ xs ∨ (acc.lookup s).isSome = true) := by
          simp [List.mem_cons, hsx]
        rw [hc, if_congr hm rfl rfl]

theorem bump_keys (x : σ) :
    ∀ acc : List (σ × ℕ),
      (bump acc x).map Prod.fst =
        if x ∈ acc.map Prod.fst then acc.map Prod.fst
        else acc.map Prod.fst ++ [x] := by
  intro acc
  induction acc with
  | nil => simp [bump]
  | cons p rest ih =>
      obtain ⟨k, n⟩ := p
      by_cases hkx : k = x
      · subst hkx
        simp [bump]
      · have hxk : ¬x = k := fun h => hkx h.symm
        by_cases hx : x ∈ rest.map Prod.fst <;>
          simp [bump, hkx, hxk, hx, ih]

theorem bump_keys_nodup {acc : List (σ × ℕ)} (x : σ)
    (h : (acc.map Prod.fst).Nodup) : ((bump acc x).map Prod.fst).Nodup := by
  rw [bump_keys]
  split_ifs with hx
  · exact h
  · have hperm : List.Perm (acc.map Prod.fst ++ [x]) (x :: acc.map Prod.fst) :=
      List.perm_append_singleton x (acc.map Prod.fst)
    exact hperm.nodup_iff.mpr (List.nodup_cons.mpr ⟨hx, h⟩)

theorem foldl_bump_keys_nodup (xs : List σ) :
    ∀ acc : List (σ × ℕ), (acc.map Prod.fst).Nodup →
      ((List.foldl bump acc xs).map Prod.fst).Nodup := by
  induction xs with
  | nil => intro acc h; exact h
  | cons x xs ih =>
      intro acc h
      rw [List.foldl_cons]
      exact ih _ (bump_keys_nodup x h)

theorem lookup_of_mem_nodupkeys :
    ∀ {acc : List (σ × ℕ)}, (acc.map Prod.fst).Nodup →
      ∀ {s : σ} {c : ℕ}, (s, c) ∈ acc → acc.lookup s = some c := by
  intro acc
  induction acc with
  | nil => intro _ s c h; cases h
  | cons p rest ih =>
      obtain ⟨k, n⟩ := p
      intro hnd s c hmem
      rw [List.map_cons, List.nodup_cons] at hnd
      rcases List.mem_cons.mp hmem with h1 | h1
      · obtain ⟨h2, h3⟩ := Prod.ext_iff.mp h1
        dsimp only at h2 h3
        subst h2
        subst h3
        simp [List.lookup]
      · have hsk : ¬s = k := by
          intro h2
          subst h2
          exact hnd.1 (List.mem_map.mpr ⟨(s, c), h1, rfl⟩)
        have hb : (s == k) = false := beq_eq_false_iff_ne.mpr hsk
        simp only [List.lookup, hb]
        exact ih hnd.2 h1

theorem foldl_addSymptomCount_eq_bump (reported : List σ) (l : List σ) :
    ∀ acc : List (σ × ℕ),
      l.foldl (addSymptomCount reported) acc =
        (l.filter (fun s => decide (s ∉ reported))).foldl bump acc := by
  induction l with
  | nil => intro acc; rfl
  | cons s l ih =>
      intro acc
      by_cases h : s ∈ reported
      · rw [List.foldl_cons]
        have h1 : addSymptomCount reported acc s = acc := by
          unfold addSymptomCount
          rw [if_pos h]
        rw [h1, ih]
        have h2 : (s :: l).filter (fun s => decide (s ∉ reported)) =
            l.filter (fun s => decide (s ∉ reported)) := by
          simp [List.filter_cons, h]
        rw [h2]
      · rw [List.foldl_cons]
        have h1 : addSymptomCount reported acc s = bump acc s := by
          unfold addSymptomCount
          rw [if_neg h]
        have h2 : (s :: l).filter (fun s => decide (s ∉ reported)) =
            s :: l.filter (fun s => decide (s ∉ reported)) := by
          simp [List.filter_cons, h]
        rw [h1, h2, List.foldl_cons, ih]

theorem baseCounts_eq_bump (db : RuleDB δ σ) (reported : List σ)
    (top5 : List (δ × ℚ)) :
    baseCounts db reported top5 =
      ((((top5.map (fun p => (db.rules p.1).flatten)).flatten).filter
          (fun s => decide (s ∉ reported))).foldl bump []) := by
  rw [← foldl_addSymptomCount_eq_bump]
  rw [List.foldl_flatten, List.foldl_map]
  unfold baseCounts
  congr 1
  funext acc p
  rw [List.foldl_flatten]

theorem mem_baseCounts {db : RuleDB δ σ} {reported : List σ}
    {top5 : List (δ × ℚ)} {s : σ} {c : ℕ}
    (h : (s, c) ∈ baseCounts db reported top5) :
    s ∉ reported ∧
      c = ((top5.map (fun p => (db.rules p.1).flatten)).flatten).count s := by
  rw [baseCounts_eq_bump] at h
  have hnodup :
      ((List.foldl bump []
          (((top5.map (fun p => (db.rules p.1).flatten)).flatten).filter
            (fun s => decide (s ∉ reported)))).map Prod.fst).Nodup :=
    foldl_bump_keys_nodup _ [] (by simp)
  have hlook := lookup_of_mem_nodupkeys hnodup h
  rw [foldl_bump_lookup] at hlook
  by_cases hmem : s ∈ ((top5.map (fun p => (db.rules p.1).flatten)).flatten).filter
      (fun s => decide (s ∉ reported))
  · rw [if_pos (Or.inl hmem)] at hlook
    have hnr : s ∉ reported := by
      have h2 := (List.mem_filter.mp hmem).2
      simpa using h2
    refine ⟨hnr, ?_⟩
    have hc : c = (((top5.map (fun p => (db.rules p.1).flatten)).flatten).filter
        (fun s => decide (s ∉ reported))).count s := by
      have h3 := Option.some_injective _ hlook
      simpa using h3.symm
    rw [hc]
    exact List.count_filter (by simpa using hnr)
  · have hcond : ¬(s ∈ ((top5.map (fun p => (db.rules p.1).flatten)).flatten).filter
        (fun s => decide (s ∉ reported)) ∨
          (List.lookup s ([] : List (σ × ℕ))).isSome = true) := by
      rintro (h1 | h1)
      · exact hmem h1
      · simp [List.lookup] at h1
    rw [if_neg hcond] at hlook
    exact Option.noConfusion hlook

theorem mem_predictedSymptoms {db : RuleDB δ σ} {reported : List σ}
    {top5 : List (δ × ℚ)} {s : σ} {q : ℚ}
    (h : (s, q) ∈ predictedSymptoms db reported top5) :
    s ∉ reported ∧
      q = (((top5.map (fun p => (db.rules p.1).flatten)).flatten).count s : ℚ) +
        (if s ∈ topDiseaseSymptoms db top5 then BOOST_VALUE else 0) := by
  unfold predictedSymptoms at h
  rw [mem_sortDesc] at h
  obtain ⟨⟨s0, c⟩, hmem, heq⟩ := List.mem_map.mp h
  obtain ⟨h1, h2⟩ := Prod.ext_iff.mp heq
  dsimp only at h1 h2
  subst h1
  subst h2
  obtain ⟨hnr, hc⟩ := mem_baseCounts hmem
  exact ⟨hnr, by rw [hc]⟩

theorem count_eq_ite_of_nodup {g : List σ} (h : g.Nodup) (s : σ) :
    g.count s = if s ∈ g then 1 else 0 := by
  by_cases hm : s ∈ g
  · rw [if_pos hm]
    exact List.count_eq_one_of_mem h hm
  · rw [if_neg hm]
    exact List.count_eq_zero.mpr hm

theorem count_flatten_groups {rules : List (List σ)} (hnd : ∀ g ∈ rules, g.Nodup)
    (s : σ) :
    (rules.flatten).count s = rules.countP (fun g => decide (s ∈ g)) := by
  induction rules with
  | nil => rfl
  | cons g rs ih =>
      rw [List.flatten_cons, List.count_append, List.countP_cons]
      rw [ih (fun g2 hg2 => hnd g2 (List.mem_cons_of_mem g hg2))]
      rw [count_eq_ite_of_nodup (hnd g (List.mem_cons_self g rs)) s]
      by_cases hm : s ∈ g
      · simp [hm]
        omega
      · simp [hm]

theorem groupOccurrences_cons (db : RuleDB δ σ) (p : δ × ℚ) (ps : List (δ × ℚ))
    (s : σ) :
    groupOccurrences db (p :: ps) s =
      (db.rules p.1).countP (fun g => decide (s ∈ g)) + groupOccurrences db ps s := by
  unfold groupOccurrences
  rw [List.map_cons, List.flatten_cons, List.countP_append]

theorem count_flatten_top5 (db : RuleDB δ σ) (s : σ) :
    ∀ top5 : List (δ × ℚ), (∀ p ∈ top5, ∀ g ∈ db.rules p.1, g.Nodup) →
      ((top5.map (fun p => (db.rules p.1).flatten)).flatten).count s =
        groupOccurrences db top5 s := by
  intro top5
  induction top5 with
  | nil => intro _; rfl
  | cons p ps ih =>
      intro hnd
      rw [List.map_cons, List.flatten_cons, List.count_append, groupOccurrences_cons]
      rw [ih (fun p2 hp2 => hnd p2 (List.mem_cons_of_mem p hp2))]
      rw [count_flatten_groups (hnd p (List.mem_cons_self p ps)) s]

theorem round2_hundred : round2 (100 : ℚ) = 100 := by
  have h := round2_intCast 100
  norm_num at h
  exact h

theorem round2_fifty : round2 (50 : ℚ) = 50 := by
  have h := round2_intCast 50
  norm_num at h
  exact h

theorem round2_scenario_top : round2 (((2 : ℕ) : ℚ) / ((2 : ℕ) : ℚ) * 100) = 100 := by
  norm_num [round2_hundred]

theorem round2_scenario_second : round2 (((1 : ℕ) : ℚ) / ((2 : ℕ) : ℚ) * 100) = 50 := by
  norm_num [round2_fifty]

theorem engine_scenario :
    diagnoseEngine scenarioDB [0, 1] = ([(10, 100), (20, 50)], [(2, 11), (3, 1)]) := by
  have hd : scenarioDB.diseases = [10, 20] := rfl
  have hr10 : scenarioDB.rules 10 = [[0, 1], [2]] := rfl
  have hr20 : scenarioDB.rules 20 = [[0, 3]] := rfl
  have hdf10 : diagnosisFor ([0, 1] : List ℕ) [[0, 1], [2]] =
      some (round2 (((2 : ℕ) : ℚ) / ((2 : ℕ) : ℚ) * 100)) := rfl
  have hdf20 : diagnosisFor ([0, 1] : List ℕ) [[0, 3]] =
      some (round2 (((1 : ℕ) : ℚ) / ((2 : ℕ) : ℚ) * 100)) := rfl
  have hpot : potentialDiagnoses scenarioDB [0, 1] = [(10, 100), (20, 50)] := by
    rw [potentialDiagnoses, hd, List.filterMap_cons, hr10, hdf10,
      round2_scenario_top, List.filterMap_cons, hr20, hdf20, round2_scenario_second]
    norm_num
  have hsort : sortDesc [((10 : ℕ), (100 : ℚ)), (20, 50)] = [(10, 100), (20, 50)] := by
    unfold sortDesc
    norm_num [List.insertionSort, List.orderedInsert]
  have hbc : baseCounts scenarioDB [0, 1] [((10 : ℕ), (100 : ℚ)), (20, 50)] =
      [(2, 1), (3, 1)] := rfl
  have htop : topDiseaseSymptoms scenarioDB [((10 : ℕ), (100 : ℚ)), (20, 50)] =
      [0, 1, 2] := rfl
  have hps : predictedSymptoms scenarioDB [0, 1] [((10 : ℕ), (100 : ℚ)), (20, 50)] =
      [(2, 11), (3, 1)] := by
    unfold predictedSymptoms
    rw [hbc, htop]
    norm_num [sortDesc, List.insertionSort, List.orderedInsert, BOOST_VALUE]
  show (sortDesc (potentialDiagnoses scenarioDB [0, 1]),
      predictedSymptoms scenarioDB [0, 1]
        ((sortDesc (potentialDiagnoses scenarioDB [0, 1])).take 5)) =
    ([(10, 100), (20, 50)], [(2, 11), (3, 1)])
  rw [hpot, hsort]
  rw [show ([((10 : ℕ), (100 : ℚ)), (20, 50)]).take 5 = [(10, 100), (20, 50)] from rfl]
  rw [hps]

/-- Claim C6: every suggested symptom's score equals the number of
`(disease, group)` occurrences of that symptom across all condition groups
of the top-5 ranked diseases (a symptom in two groups of one disease counts
twice and occurrences accumulate across distinct top-5 diseases; only
non-reported symptoms are counted, and a suggested symptom is never
reported), plus the boost constant 10 added exactly once when the symptom
belongs to the union of the top-ranked disease's rule symptoms.  The
hypothesis is the section-3 invariant that a condition group is a set (no
duplicate symptoms inside one group). -/
theorem suggestion_score_formula (db : RuleDB δ σ) (reported : List σ) (s : σ) (q : ℚ)
    (hnd : ∀ d ∈ db.diseases, ∀ g ∈ db.rules d, g.Nodup)
    (h : (s, q) ∈ (diagnoseEngine db reported).2) :
    s ∉ reported ∧
      q = (groupOccurrences db ((diagnoseEngine db reported).1.take 5) s : ℚ) +
        (if s ∈ topDiseaseSymptoms db ((diagnoseEngine db reported).1.take 5) then
          BOOST_VALUE else 0) := by
  have h2 : (s, q) ∈ predictedSymptoms db reported
      ((diagnoseEngine db reported).1.take 5) := h
  obtain ⟨hnr, hq⟩ := mem_predictedSymptoms h2
  refine ⟨hnr, ?_⟩
  rw [hq]
  have hnd5 : ∀ p ∈ (diagnoseEngine db reported).1.take 5,
      ∀ g ∈ db.rules p.1, g.Nodup := by
    intro p hp
    have hp2 : p ∈ (diagnoseEngine db reported).1 := List.take_subset 5 _ hp
    obtain ⟨d0, q0⟩ := p
    exact hnd d0 (mem_ranked_iff.mp hp2).1
  rw [count_flatten_top5 db s _ hnd5]

/-- Claim C6 witness: the spec's scenario store with reported symptoms
`{0, 1}`: suggested symptom 2 occurs once among the top-5 groups and lies
in the top disease's rule symptoms, so its score is `1 + 10 = 11`. -/
theorem suggestion_score_formula_witness :
    (((2 : ℕ), (11 : ℚ)) ∈ (diagnoseEngine scenarioDB [0, 1]).2) ∧
      (2 : ℕ) ∉ ([0, 1] : List ℕ) ∧
      (11 : ℚ) = (groupOccurrences scenarioDB
          ((diagnoseEngine scenarioDB [0, 1]).1.take 5) 2 : ℚ) +
        (if 2 ∈ topDiseaseSymptoms scenarioDB
            ((diagnoseEngine scenarioDB [0, 1]).1.take 5) then
          BOOST_VALUE else 0) :=
  ⟨by simp [engine_scenario],
    suggestion_score_formula scenarioDB [0, 1] 2 11 (by decide) (by simp [engine_scenario])⟩

/-- Claim C7: no symptom that is a member of the reported-symptom set ever
appears in the suggestion output. -/
theorem suggestion_excludes_reported (db : RuleDB δ σ) (reported : List σ)
    (s : σ) (q : ℚ) (h : (s, q) ∈ (diagnoseEngine db reported).2) :
    s ∉ reported :=
  (mem_predictedSymptoms
    (show (s, q) ∈ predictedSymptoms db reported
        ((diagnoseEngine db reported).1.take 5) from h)).1

/-- Claim C7 witness: in the scenario run with reported symptoms `{0, 1}`,
the suggestion `(3, 1)` is in the output and 3 is indeed not reported. -/
theorem suggestion_excludes_reported_witness :
    (((3 : ℕ), (1 : ℚ)) ∈ (diagnoseEngine scenarioDB [0, 1]).2) ∧
      (3 : ℕ) ∉ ([0, 1] : List ℕ) :=
  ⟨by simp [engine_scenario],
    suggestion_excludes_reported scenarioDB [0, 1] 3 1 (by simp [engine_scenario])⟩

/-- Claim C4: the condition group whose matched count and size are used for
the score is the first group in iteration order that attains the maximal
matched count; the running best is replaced only on a strictly greater
matched count, so a group tying the current maximum never replaces it.
Formally, the best-group loop returns the maximal matched count paired with
the length of the first group attaining that maximum (and `(0, 0)` when no
group overlaps the reported set). -/
theorem best_group_selection (reported : List σ) (rules : List (List σ)) :
    bestOf reported rules =
      (maxMatchCount reported rules,
        if maxMatchCount reported rules = 0 then 0
        else
          ((rules.find?
                (fun g => decide (countMatched reported g = maxMatchCount reported rules))).map
              List.length).getD 0) := by
  by_cases hM : maxMatchCount reported rules = 0
  · rw [if_pos hM, bestOf,
      foldl_bestStep_frozen reported (le_of_eq hM), hM]
  · obtain ⟨g, hfind, hfold⟩ :=
      foldl_bestStep_first_achiever reported rules (0, 0) (Nat.pos_of_ne_zero hM)
    rw [if_neg hM, bestOf, hfold, hfind]
    rfl

end MedDiag
